import Mathlib

/-!
Verification of the scaffold-ai graph-to-infrastructure core.

The definitions below are shallow embeddings of the Python sources under
`apps/backend/src/scaffold_ai/`:

* `services/security_autofix.py` (`_resolve_type`, `SecurityAutoFix`)
* `agents/security_specialist.py` (`SecuritySpecialistAgent.review`)
* `graph/nodes.py` (`generate_node_positions`, `architect_node` merge,
  `security_gate`)
* `services/stack_splitter.py` (`StackSplitter.split_by_layer`)
* `services/cdk_generator.py` (`CDKGenerator.generate`)

Python dicts of configuration flags are modelled as association lists of
`String × JVal`, where `JVal` covers the value shapes the code reads and
writes (booleans, strings, integers); Python truthiness is `truthy`.
Dict key-presence created by `setdefault` is not observable by any of the
functions modelled (all reads use `.get` with defaults), so nodes carry a
`NodeData` record with optional fields instead of a raw dict.
-/

set_option autoImplicit false

namespace ScaffoldAI

/-- A JSON-ish configuration value as used in node `config` dicts. -/
inductive JVal where
  | b (v : Bool)
  | s (v : String)
  | i (v : Int)
  deriving DecidableEq, Repr

/-- Python truthiness of an optional config value (`None`/`False`/`""`/`0`
are falsy). -/
def truthy : Option JVal → Bool
  | none => false
  | some (.b v) => v
  | some (.s v) => v ≠ ""
  | some (.i v) => v ≠ 0

/-- A node `config` dict: association list keyed by strings. -/
abbrev Config := List (String × JVal)

/-- `config.get(k)`. -/
def cfgGet (c : Config) (k : String) : Option JVal :=
  match c with
  | [] => none
  | (k', v) :: t => if k' = k then some v else cfgGet t k

/-- `config[k] = v`: replace the first binding of `k`, else append. -/
def cfgSet (c : Config) (k : String) (v : JVal) : Config :=
  match c with
  | [] => [(k, v)]
  | (k', v') :: t => if k' = k then (k, v) :: t else (k', v') :: cfgSet t k v

@[simp] theorem cfgGet_cfgSet_self (c : Config) (k : String) (v : JVal) :
    cfgGet (cfgSet c k v) k = some v := by
  induction c with
  | nil => simp [cfgSet, cfgGet]
  | cons hd t ih =>
    obtain ⟨k', v'⟩ := hd
    by_cases h : k' = k <;> simp [cfgSet, cfgGet, h, ih]

theorem cfgGet_cfgSet_ne (c : Config) (k k' : String) (v : JVal) (h : k ≠ k') :
    cfgGet (cfgSet c k v) k' = cfgGet c k' := by
  induction c with
  | nil => simp [cfgSet, cfgGet, h]
  | cons hd t ih =>
    obtain ⟨k₀, v₀⟩ := hd
    by_cases h₀ : k₀ = k
    · subst h₀; simp [cfgSet, cfgGet, h]
    · simp [cfgSet, cfgGet, h₀, ih]

/-- The `data` dict of a node (`type`, `label`, `config`, `description`). -/
structure NodeData where
  dtype : Option String := none
  dlabel : Option String := none
  config : Config := []
  ddesc : Option String := none
  deriving DecidableEq, Repr

/-- A graph node.  `ntype`/`nlabel`/`ndesc` are the top-level `type`,
`label` and `description` keys (present on freshly drafted nodes and on the
synthesized auth node); `data` is the `data` dict. -/
structure Node where
  id : String
  ntype : Option String := none
  nlabel : Option String := none
  ndesc : Option String := none
  position : Option (Nat × Nat) := none
  data : NodeData := {}
  deriving DecidableEq, Repr

/-- A graph edge; a missing `label` is modelled as `""` (the code only ever
reads labels it has written or defaults them to `""`). -/
structure Edge where
  id : String
  source : String
  target : String
  label : String := ""
  deriving DecidableEq, Repr

/-- The architecture graph. -/
structure Graph where
  nodes : List Node
  edges : List Edge
  deriving DecidableEq, Repr

/-! ### String helpers (Python `str.lower` and the `in` substring test) -/

/-- `s.lower()` (ASCII case folding, as used on ids/labels). -/
def lowerStr (s : String) : String := ⟨s.data.map Char.toLower⟩

/-- Is `pat` a contiguous substring of `s` (Python `pat in s`)? -/
def hasSubAux (pat : List Char) : List Char → Bool
  | [] => pat.isEmpty
  | c :: rest => pat.isPrefixOf (c :: rest) || hasSubAux pat rest

/-- Python `pat in s` on strings. -/
def strHasSub (s pat : String) : Bool := hasSubAux pat.data s.data

/-! ### `_resolve_type` (services/security_autofix.py)

and the classification the review engine actually uses
(`agents/security_specialist.py`, which branches on the raw `data.type`).
-/

/-- `known_types` in `_resolve_type`. -/
def knownTypes : List String :=
  ["queue", "storage", "database", "lambda", "api", "auth",
   "cdn", "sns", "events", "glue", "stream", "notification", "frontend"]

/-- `_TYPE_HINTS["lambda"]`. -/
def lambdaHints : List String :=
  ["lambda", "function", "fn", "handler", "processor", "detector", "athena"]

/-- `_TYPE_HINTS["dlq"]`. -/
def dlqHints : List String := ["dlq", "dead-letter", "deadletter", "dead_letter"]

/-- The remaining `_TYPE_HINTS` entries in dict insertion order, skipping
`lambda` and `dlq` exactly as the resolver's final loop does. -/
def restHints : List (String × List String) :=
  [("queue", ["queue", "sqs", "fifo"]),
   ("storage", ["bucket", "s3", "storage"]),
   ("database", ["db", "database", "dynamo", "table", "rds", "aurora"]),
   ("api", ["api", "gateway", "apigw", "rest", "http"]),
   ("auth", ["auth", "cognito", "identity", "login"]),
   ("cdn", ["cdn", "cloudfront", "distribution"]),
   ("sns", ["sns", "topic", "notification", "alert"]),
   ("events", ["eventbridge", "event-bus", "events", "eventbus"]),
   ("glue", ["glue", "catalog", "etl", "crawler"]),
   ("stream", ["kinesis", "stream", "firehose"])]

/-- `f"{node_id} {label}"` over the case-folded id and label. -/
def combinedIdLabel (n : Node) : String :=
  lowerStr n.id ++ " " ++ lowerStr (n.data.dlabel.getD "")

/-- `_resolve_type(node)` from `services/security_autofix.py`. -/
def resolveType (n : Node) : String :=
  let dataType := n.data.dtype.getD ""
  if dataType ∈ knownTypes then dataType
  else
    let combined := combinedIdLabel n
    if lambdaHints.any (fun k => strHasSub combined k) then "lambda"
    else if dlqHints.any (fun k => strHasSub combined k) then "queue"
    else
      match restHints.find? (fun p => p.2.any (fun k => strHasSub combined k)) with
      | some p => p.1
      | none => if dataType ≠ "" then dataType else "unknown"

/-- The classification `SecuritySpecialistAgent.review` uses:
`node.get("data", {}).get("type", "")`, with no keyword inference. -/
def reviewType (n : Node) : String := n.data.dtype.getD ""

/-- A node having only a keyword-inferable type: no explicit `data.type`. -/
def myLambdaNode : Node := { id := "my-lambda" }

/-- A node whose explicit `data.type` is a known canonical type. -/
def apiTypedNode : Node := { id := "gw-1", data := { dtype := some "api" } }

/-! ### `SecuritySpecialistAgent.review` (agents/security_specialist.py)

The deterministic fallback static analyzer.  The per-node `elif` chain
appends to four accumulators (`issues`, `warnings`, `recommendations`,
`config_changes`); each accumulator is modelled as a `flatMap` over the
nodes, which yields the same lists in the same order.  `issues` is never
appended to anywhere in the function, so the critical count is always 0.
-/

structure Issue where
  service : String
  issue : String
  severity : String
  recommendation : String
  deriving DecidableEq, Repr

structure Recommendation where
  service : String
  recommendation : String
  deriving DecidableEq, Repr

structure ConfigChange where
  node_id : String
  changes : Config
  deriving DecidableEq, Repr

/-- The review result (`security_enhancements.nodes_to_add` is always `[]`
in the source, so only `config_changes` is kept). -/
structure Review where
  security_score : Int
  passed : Bool
  critical_issues : List Issue
  warnings : List Issue
  recommendations : List Recommendation
  compliant_services : List String
  config_changes : List ConfigChange
  deriving DecidableEq, Repr

/-- `any(n.get("data", {}).get("type") == "auth" for n in nodes)`. -/
def hasAuthTyped (nodes : List Node) : Bool :=
  nodes.any (fun m => m.data.dtype == some "auth")

/-- Warnings appended for one node by the review loop. -/
def reviewWarningsFor (nodes : List Node) (n : Node) : List Issue :=
  let t := reviewType n
  let label := n.data.dlabel.getD ""
  if t = "storage" then
    [{ service := "S3",
       issue := "Bucket \x27" ++ label ++
         "\x27 should have encryption, versioning, and block public access enabled",
       severity := "medium",
       recommendation :=
         "Add blockPublicAccess: BLOCK_ALL, encryption: S3_MANAGED, versioned: true" }]
  else if t = "api" then
    if hasAuthTyped nodes then []
    else
      [{ service := "API Gateway",
         issue := "API \x27" ++ label ++ "\x27 has no authentication configured",
         severity := "high",
         recommendation := "Add Cognito, IAM, or Lambda authorizer for authentication" }]
  else if t = "queue" then
    [{ service := "SQS",
       issue := "Queue \x27" ++ label ++
         "\x27 should have encryption enabled for sensitive data",
       severity := "medium",
       recommendation := "Add encryption: sqs.QueueEncryption.KMS" }]
  else []

/-- Recommendations appended for one node by the review loop. -/
def reviewRecsFor (n : Node) : List Recommendation :=
  let t := reviewType n
  let label := n.data.dlabel.getD ""
  if t = "database" then
    [{ service := "DynamoDB",
       recommendation := "Enable point-in-time recovery for \x27" ++ label ++
         "\x27 table for data protection" }]
  else if t = "lambda" then
    [{ service := "Lambda",
       recommendation := "Enable X-Ray tracing on \x27" ++ label ++
         "\x27 for debugging and monitoring" },
     { service := "Lambda",
       recommendation :=
         "Use least-privilege IAM grants (grantRead vs grantReadWrite) for \x27" ++
           label ++ "\x27" }]
  else if t = "auth" then
    [{ service := "Cognito",
       recommendation := "Consider enabling MFA for \x27" ++ label ++
         "\x27 user pool for enhanced security" }]
  else []

/-- Config changes appended for one node by the review loop. -/
def reviewChangesFor (n : Node) : List ConfigChange :=
  let t := reviewType n
  if t = "storage" then
    [{ node_id := n.id,
       changes := [("blockPublicAccess", .b true), ("encryption", .s "S3_MANAGED"),
                   ("versioning", .b true)] }]
  else if t = "database" then
    [{ node_id := n.id, changes := [("pointInTimeRecovery", .b true)] }]
  else if t = "queue" then
    [{ node_id := n.id, changes := [("encryption", .s "KMS"), ("deadLetterQueue", .b true)] }]
  else []

/-- `SecuritySpecialistAgent.review(graph)` (deterministic fallback path). -/
def review (g : Graph) : Review :=
  if g.nodes.isEmpty then
    { security_score := 100, passed := true, critical_issues := [], warnings := [],
      recommendations := [], compliant_services := [], config_changes := [] }
  else
    let issues : List Issue := []  -- never appended to in the source
    let warnings := g.nodes.flatMap (reviewWarningsFor g.nodes)
    let recommendations := g.nodes.flatMap reviewRecsFor
    let config_changes := g.nodes.flatMap reviewChangesFor
    let critical_count : Int := (issues.filter (fun i => i.severity == "critical")).length
    let high_count : Int := (warnings.filter (fun w => w.severity == "high")).length
    let medium_count : Int := (warnings.filter (fun w => w.severity == "medium")).length
    { security_score :=
        max 0 (min 100 (100 - critical_count * 30 - high_count * 15 - medium_count * 5)),
      passed := decide (critical_count = 0 ∧ high_count ≤ 3),
      critical_issues := issues.filter (fun i => i.severity == "critical"),
      warnings := warnings,
      recommendations := recommendations,
      compliant_services := [],
      config_changes := config_changes }

/-- One unauthenticated explicitly-typed `api` node. -/
def apiNode (i : String) : Node := { id := i, data := { dtype := some "api" } }

/-- Graph with exactly one `api` node and nothing else. -/
def oneApiGraph : Graph := ⟨[apiNode "api-1"], []⟩

/-- Graph with four `api` nodes and nothing else. -/
def fourApiGraph : Graph :=
  ⟨[apiNode "api-1", apiNode "api-2", apiNode "api-3", apiNode "api-4"], []⟩

/-- C1 — the deterministic review returns
`score = clamp(100 - 30*countCritical - 15*countHigh - 5*countMedium, 0, 100)`
and `passed = (countCritical == 0 AND countHigh <= 3)` with the counts taken
over the issues it emits; one unauthenticated `api` node yields score 85 and
`passed = true`; four such nodes yield `passed = false`. -/
theorem review_score_and_pass_formula (g : Graph) :
    (review g).security_score =
      max 0 (min 100 (100 -
        (((review g).critical_issues.filter (fun i => i.severity == "critical")).length : Int)
          * 30 -
        (((review g).warnings.filter (fun w => w.severity == "high")).length : Int) * 15 -
        (((review g).warnings.filter (fun w => w.severity == "medium")).length : Int) * 5)) ∧
    (review g).passed =
      decide
        ((((review g).critical_issues.filter (fun i => i.severity == "critical")).length : Int)
            = 0 ∧
         (((review g).warnings.filter (fun w => w.severity == "high")).length : Int) ≤ 3) ∧
    (review oneApiGraph).security_score = 85 ∧
    (review oneApiGraph).passed = true ∧
    (review fourApiGraph).passed = false := by
  refine ⟨?_, ?_, by decide, by decide, by decide⟩ <;>
    · rcases g with ⟨nodes, edges⟩
      cases nodes <;> rfl

/-! ### `mergeNodes` (graph/nodes.py, `architect_node` lines 258-285) -/

/-- The node merge performed by `architect_node`: keep `existing`, then
append those incoming nodes whose id is not among the existing ids. -/
def mergeNodes (existing incoming : List Node) : List Node :=
  let existingIds := existing.map (·.id)
  existing ++ incoming.filter (fun n => !(existingIds.contains n.id))

/-- Reference definition from the spec's words:
`existing ++ filter(incoming, n => n.id ∉ idsOf(existing))`. -/
def mergeNodesSpec (existing incoming : List Node) : List Node :=
  existing ++ incoming.filter (fun n => n.id ∉ existing.map (·.id))

@[simp] theorem contains_eq_mem_decide (l : List String) (a : String) :
    l.contains a = decide (a ∈ l) := by
  simp [List.contains, List.elem_eq_mem]

theorem mergeNodes_eq_spec (existing incoming : List Node) :
    mergeNodes existing incoming = mergeNodesSpec existing incoming := by
  simp only [mergeNodes, mergeNodesSpec]
  congr 1
  apply List.filter_congr
  intro n _
  simp only [contains_eq_mem_decide, ← decide_not]

theorem mem_ids_mergeNodes (existing incoming : List Node) (n : Node)
    (hn : n ∈ incoming) :
    n.id ∈ (mergeNodes existing incoming).map (·.id) := by
  by_cases h : n.id ∈ existing.map (·.id)
  · simp only [mergeNodes, List.map_append, List.mem_append]
    left
    exact h
  · have : n ∈ (mergeNodes existing incoming) := by
      simp only [mergeNodes, List.mem_append]
      right
      refine List.mem_filter.mpr ⟨hn, ?_⟩
      simpa using h
    exact List.mem_map.mpr ⟨n, this, rfl⟩

/-- C6 — Node merge equals the reference definition
`existing ++ filter(incoming, n => n.id ∉ idsOf(existing))`; merging the
same incoming delta twice equals merging it once; re-adding a node with an
existing id is a no-op leaving the existing list untouched. -/
theorem merge_nodes_spec_and_idempotent (existing incoming : List Node) (n : Node) :
    mergeNodes existing incoming = mergeNodesSpec existing incoming ∧
    mergeNodes (mergeNodes existing incoming) incoming = mergeNodes existing incoming ∧
    (n.id ∈ existing.map (·.id) → mergeNodes existing [n] = existing) := by
  refine ⟨mergeNodes_eq_spec existing incoming, ?_, ?_⟩
  · have hfilter :
        incoming.filter
          (fun m => !(((mergeNodes existing incoming).map (·.id)).contains m.id)) = [] := by
      apply List.filter_eq_nil_iff.mpr
      intro m hm
      have := mem_ids_mergeNodes existing incoming m hm
      simpa using this
    calc mergeNodes (mergeNodes existing incoming) incoming
        = mergeNodes existing incoming ++
            incoming.filter
              (fun m => !(((mergeNodes existing incoming).map (·.id)).contains m.id)) := rfl
      _ = mergeNodes existing incoming := by rw [hfilter, List.append_nil]
  · intro hmem
    simp only [mergeNodes]
    have : [n].filter (fun m => !((existing.map (·.id)).contains m.id)) = [] := by
      apply List.filter_eq_nil_iff.mpr
      intro m hm
      simp at hm
      subst hm
      simpa using hmem
    rw [this, List.append_nil]

/-- C6 witness: the theorem applied at a concrete graph and delta. -/
theorem merge_nodes_spec_and_idempotent_witness :
    mergeNodes [apiTypedNode] [apiTypedNode, myLambdaNode] =
      mergeNodesSpec [apiTypedNode] [apiTypedNode, myLambdaNode] ∧
    mergeNodes (mergeNodes [apiTypedNode] [apiTypedNode, myLambdaNode])
        [apiTypedNode, myLambdaNode] =
      mergeNodes [apiTypedNode] [apiTypedNode, myLambdaNode] ∧
    mergeNodes [apiTypedNode] [apiTypedNode] = [apiTypedNode] := by
  obtain ⟨h1, h2, h3⟩ :=
    merge_nodes_spec_and_idempotent [apiTypedNode] [apiTypedNode, myLambdaNode] apiTypedNode
  refine ⟨h1, h2, ?_⟩
  exact (merge_nodes_spec_and_idempotent [apiTypedNode] [apiTypedNode] apiTypedNode).2.2
    (by decide)

/-- C2 counterexample: on a node whose type is only keyword-inferable the
review engine classifies `""` while the autofix resolver classifies
`"lambda"`, so the two classifications are not equal. -/
theorem review_autofix_classification_differs :
    reviewType myLambdaNode = "" ∧ resolveType myLambdaNode = "lambda" ∧
    reviewType myLambdaNode ≠ resolveType myLambdaNode := by
  refine ⟨rfl, by decide, by decide⟩

/-- C2 (amended) — both classifiers are total functions; they agree on
every node whose explicit `data.type` is one of the known canonical types,
and in the autofix resolver the lambda keywords take priority over the
dead-letter-queue/queue keywords; but the review engine performs no keyword
inference, so the two classifications can disagree on nodes whose type is
only inferable from id/label keywords. -/
theorem review_autofix_agree_on_known_types (n : Node) :
    (reviewType n ∈ knownTypes → resolveType n = reviewType n) ∧
    (reviewType n ∉ knownTypes →
      lambdaHints.any (fun k => strHasSub (combinedIdLabel n) k) = true →
      resolveType n = "lambda") := by
  constructor
  · intro h
    simp only [resolveType, reviewType] at *
    rw [if_pos h]
  · intro h hl
    simp only [resolveType, reviewType] at *
    rw [if_neg h, if_pos hl]

/-- C2 witness: agreement at a node with explicit known type, and lambda
priority at a node with both lambda and dlq keywords in its id. -/
theorem review_autofix_agree_on_known_types_witness :
    resolveType apiTypedNode = reviewType apiTypedNode ∧
    resolveType { id := "dlq-processor-lambda" } = "lambda" := by
  constructor
  · exact (review_autofix_agree_on_known_types apiTypedNode).1 (by decide)
  · exact (review_autofix_agree_on_known_types { id := "dlq-processor-lambda" }).2
      (by decide) (by decide)

/-! ### `SecurityAutoFix.analyze_and_fix` (services/security_autofix.py)

Each hardening rule in the per-node `elif` chain has the shape
"read one config key; if the guard fires, write one or more keys and log
one message".  `Step` captures that shape; the per-type rule lists below
transcribe the source branches in order.
-/

/-- One hardening rule: guard on `cfgGet c key`, on success write `sets`
in order and log `msg`. -/
structure Step where
  key : String
  guard : Option JVal → Bool
  sets : List (String × JVal)
  msg : String

/-- Write the key/value pairs left to right (`config[k] = v` …). -/
def applyKeys (c : Config) : List (String × JVal) → Config
  | [] => c
  | (k, v) :: t => applyKeys (cfgSet c k v) t

/-- Run one rule on a config. -/
def runStep (s : Step) (c : Config) : Config × List String :=
  if s.guard (cfgGet c s.key) then (applyKeys c s.sets, [s.msg]) else (c, [])

/-- Run the rules of one branch in order, accumulating the change log. -/
def runSteps : List Step → Config → Config × List String
  | [], c => (c, [])
  | s :: ss, c =>
    let r1 := runStep s c
    let r2 := runSteps ss r1.1
    (r2.1, r1.2 ++ r2.2)

/-- `t == "storage"` branch. -/
def storageSteps (label : String) : List Step :=
  [{ key := "encryption",
     guard := fun v =>
       decide (v = none ∨ v = some (.s "AES256") ∨ v = some (.s "SSE-S3")),
     sets := [("encryption", .s "KMS"), ("kms_key_rotation", .b true)],
     msg := "✅ Upgraded S3 \x27" ++ label ++ "\x27 to KMS encryption with key rotation" },
   { key := "block_public_access", guard := fun v => !truthy v,
     sets := [("block_public_access", .b true)],
     msg := "✅ Enabled Block Public Access on S3 \x27" ++ label ++ "\x27" },
   { key := "versioning", guard := fun v => !truthy v,
     sets := [("versioning", .b true)],
     msg := "✅ Enabled versioning on S3 \x27" ++ label ++ "\x27" },
   { key := "https_only", guard := fun v => !truthy v,
     sets := [("https_only", .b true)],
     msg := "✅ Enforced HTTPS-only access on S3 \x27" ++ label ++ "\x27" }]

/-- `t == "database"` branch. -/
def databaseSteps (label : String) : List Step :=
  [{ key := "encryption", guard := fun v => !truthy v,
     sets := [("encryption", .s "KMS"), ("kms_encryption", .b true)],
     msg := "✅ Enabled KMS encryption for DynamoDB \x27" ++ label ++ "\x27" },
   { key := "pitr", guard := fun v => !truthy v, sets := [("pitr", .b true)],
     msg := "✅ Enabled Point-in-Time Recovery for DynamoDB \x27" ++ label ++ "\x27" }]

/-- `t == "lambda"` branch. -/
def lambdaSteps (label : String) : List Step :=
  [{ key := "vpc_enabled", guard := fun v => !truthy v,
     sets := [("vpc_enabled", .b true), ("vpc_subnets", .s "private")],
     msg := "✅ Added VPC configuration for Lambda \x27" ++ label ++ "\x27" },
   { key := "tracing", guard := fun v => !truthy v, sets := [("tracing", .s "Active")],
     msg := "✅ Enabled X-Ray tracing for Lambda \x27" ++ label ++ "\x27" }]

/-- `t == "api"` branch. -/
def apiSteps (label : String) : List Step :=
  [{ key := "cors_origins",
     guard := fun v =>
       decide (v = none ∨ v = some (.s "*") ∨ v = some (.s "ALL_ORIGINS")),
     sets := [("cors_origins", .s "cloudfront-only")],
     msg := "✅ Restricted CORS to CloudFront domain on API Gateway \x27" ++ label ++ "\x27" },
   { key := "waf_enabled", guard := fun v => !truthy v,
     sets := [("waf_enabled", .b true)],
     msg := "✅ Attached WAF WebACL to API Gateway \x27" ++ label ++ "\x27" },
   { key := "throttling", guard := fun v => !truthy v,
     sets := [("throttling", .b true)],
     msg := "✅ Enabled throttling on API Gateway \x27" ++ label ++ "\x27" },
   { key := "access_logging", guard := fun v => !truthy v,
     sets := [("access_logging", .b true)],
     msg := "✅ Enabled access logging on API Gateway \x27" ++ label ++ "\x27" }]

/-- `t == "queue"` branch. -/
def queueSteps (label : String) : List Step :=
  [{ key := "has_dlq", guard := fun v => !truthy v, sets := [("has_dlq", .b true)],
     msg := "✅ Enabled DLQ for queue \x27" ++ label ++ "\x27" },
   { key := "encryption", guard := fun v => !truthy v,
     sets := [("encryption", .s "KMS")],
     msg := "✅ Enabled KMS encryption for SQS queue \x27" ++ label ++ "\x27" }]

/-- `t == "sns"` branch. -/
def snsSteps (label : String) : List Step :=
  [{ key := "encryption", guard := fun v => !truthy v,
     sets := [("encryption", .s "KMS")],
     msg := "✅ Enabled KMS encryption for SNS topic \x27" ++ label ++ "\x27" },
   { key := "access_policy", guard := fun v => !truthy v,
     sets := [("access_policy", .s "restricted")],
     msg := "✅ Added restricted access policy for SNS topic \x27" ++ label ++ "\x27" }]

/-- `t == "cdn"` branch. -/
def cdnSteps (label : String) : List Step :=
  [{ key := "security_headers", guard := fun v => !truthy v,
     sets := [("security_headers", .b true),
              ("security_headers_policy", .s "CORS-and-SecurityHeadersPolicy")],
     msg := "✅ Added security headers (CSP, HSTS, X-Frame-Options) to CloudFront \x27" ++
       label ++ "\x27" },
   { key := "waf_enabled", guard := fun v => !truthy v,
     sets := [("waf_enabled", .b true)],
     msg := "✅ Attached WAF to CloudFront \x27" ++ label ++ "\x27" }]

/-- `t == "auth"` branch. -/
def authSteps (label : String) : List Step :=
  [{ key := "mfa", guard := fun v => decide (v ≠ some (.s "REQUIRED")),
     sets := [("mfa", .s "REQUIRED"), ("advanced_security", .s "ENFORCED")],
     msg := "✅ Enforced MFA and advanced security on Cognito \x27" ++ label ++ "\x27" }]

/-- `t == "glue"` branch. -/
def glueSteps (label : String) : List Step :=
  [{ key := "encryption", guard := fun v => !truthy v,
     sets := [("encryption", .b true)],
     msg := "✅ Enabled encryption for Glue Data Catalog \x27" ++ label ++ "\x27" },
   { key := "access_control", guard := fun v => !truthy v,
     sets := [("access_control", .s "restricted")],
     msg := "✅ Added resource-based access policy for Glue \x27" ++ label ++ "\x27" }]

/-- `t == "events"` branch. -/
def eventsSteps (label : String) : List Step :=
  [{ key := "resource_policy", guard := fun v => !truthy v,
     sets := [("resource_policy", .s "restricted")],
     msg := "✅ Added resource policy for EventBridge \x27" ++ label ++ "\x27" }]

/-- The `elif` dispatch on the resolved type. -/
def stepsFor (t : String) (label : String) : List Step :=
  if t = "storage" then storageSteps label
  else if t = "database" then databaseSteps label
  else if t = "lambda" then lambdaSteps label
  else if t = "api" then apiSteps label
  else if t = "queue" then queueSteps label
  else if t = "sns" then snsSteps label
  else if t = "cdn" then cdnSteps label
  else if t = "auth" then authSteps label
  else if t = "glue" then glueSteps label
  else if t = "events" then eventsSteps label
  else []

/-- `node.get("data", {}).get("label", node.get("id", "unknown"))`
(`id` is always present in this model). -/
def fixLabel (n : Node) : String := n.data.dlabel.getD n.id

/-- The per-node body of the `analyze_and_fix` loop: run the rules of the
node's resolved type over its config and return the updated node plus its
change-log entries. -/
def fixNode (n : Node) : Node × List String :=
  let r := runSteps (stepsFor (resolveType n) (fixLabel n)) n.data.config
  ({ n with data := { n.data with config := r.1 } }, r.2)

/-- `SecurityAutoFix._add_auth_node`: the synthesized Cognito node.
(The source also computes `max_x` over existing positions but never uses
it.) -/
def mkAuthNode (nodes : List Node) : Node :=
  { id := "auth-" ++ toString (nodes.length + 1),
    ntype := some "auth",
    position := some (50, 50),
    data := { dtype := some "auth", dlabel := some "Cognito Auth",
              config := [("mfa", .s "OPTIONAL"), ("password_policy", .s "STRONG")] } }

/-- Edges wired by `_add_auth_node`: one per node whose explicit
`data.type` equals `"api"`. -/
def authEdgesFor (authId : String) (nodes : List Node) : List Edge :=
  (nodes.filter (fun n => n.data.dtype == some "api")).map
    (fun api =>
      { id := "e-" ++ authId ++ "-" ++ api.id, source := authId, target := api.id,
        label := "authenticates" })

/-- `SecurityAutoFix.analyze_and_fix(graph)`. -/
def analyzeAndFix (g : Graph) : Graph × List String :=
  if g.nodes.isEmpty then (g, [])
  else
    let needAuth := (g.nodes.any (fun n => resolveType n == "api")) &&
                    !(g.nodes.any (fun n => resolveType n == "auth"))
    let nodes1 := if needAuth then g.nodes ++ [mkAuthNode g.nodes] else g.nodes
    let edges1 :=
      if needAuth then g.edges ++ authEdgesFor (mkAuthNode g.nodes).id g.nodes
      else g.edges
    let changes0 : List String :=
      if needAuth then ["✅ Added Cognito user pool for API authentication"] else []
    ({ nodes := nodes1.map (fun n => (fixNode n).1), edges := edges1 },
     changes0 ++ nodes1.flatMap (fun n => (fixNode n).2))

/-! ### Idempotence of the autofix rules -/

/-- Value of `k` after the writes `sets` are applied: the last write wins. -/
def lookupLast (sets : List (String × JVal)) (k : String) : Option JVal :=
  match sets with
  | [] => none
  | (k', v) :: t =>
    match lookupLast t k with
    | some w => some w
    | none => if k' = k then some v else none

theorem cfgGet_applyKeys (c : Config) (sets : List (String × JVal)) (k : String) :
    cfgGet (applyKeys c sets) k =
      match lookupLast sets k with
      | some w => some w
      | none => cfgGet c k := by
  induction sets generalizing c with
  | nil => rfl
  | cons hd t ih =>
    obtain ⟨k', v⟩ := hd
    simp only [applyKeys, lookupLast]
    rw [ih]
    cases lookupLast t k with
    | some w => rfl
    | none =>
      by_cases h : k' = k
      · subst h; simp
      · simp [h, cfgGet_cfgSet_ne c k' k v h]

theorem cfgGet_applyKeys_not_mem (c : Config) (sets : List (String × JVal)) (k : String)
    (h : k ∉ sets.map Prod.fst) :
    cfgGet (applyKeys c sets) k = cfgGet c k := by
  have hnone : lookupLast sets k = none := by
    induction sets with
    | nil => rfl
    | cons hd t ih =>
      obtain ⟨k', v⟩ := hd
      simp only [List.map_cons, List.mem_cons] at h
      push_neg at h
      simp only [lookupLast, ih h.2]
      rw [if_neg (fun hh => h.1 hh.symm)]
  rw [cfgGet_applyKeys, hnone]

/-- Decidable check that a rule falsifies its own guard: the last value it
writes to its guard key makes the guard false. -/
def stepOKb (s : Step) : Bool :=
  match lookupLast s.sets s.key with
  | some v => !(s.guard (some v))
  | none => false

theorem guard_after_runStep (s : Step) (hok : stepOKb s = true) (c : Config) :
    s.guard (cfgGet (runStep s c).1 s.key) = false := by
  unfold runStep
  split
  · rename_i hg
    rw [cfgGet_applyKeys]
    unfold stepOKb at hok
    cases hlk : lookupLast s.sets s.key with
    | none => rw [hlk] at hok; exact absurd hok (by simp)
    | some v =>
      rw [hlk] at hok
      simpa using hok
  · rename_i hg
    simpa using hg

theorem cfgGet_runSteps_untouched (ss : List Step) (k : String)
    (h : ∀ s ∈ ss, k ∉ s.sets.map Prod.fst) (c : Config) :
    cfgGet (runSteps ss c).1 k = cfgGet c k := by
  induction ss generalizing c with
  | nil => rfl
  | cons s t ih =>
    simp only [runSteps]
    rw [ih (fun s' hs' => h s' (List.mem_cons_of_mem s hs')) (runStep s c).1]
    unfold runStep
    split
    · exact cfgGet_applyKeys_not_mem c s.sets k (h s (List.mem_cons_self s t))
    · rfl

theorem runSteps_idempotent (ss : List Step)
    (hok : ∀ s ∈ ss, stepOKb s = true)
    (hpw : ss.Pairwise (fun a b => a.key ∉ b.sets.map Prod.fst)) (c : Config) :
    runSteps ss (runSteps ss c).1 = ((runSteps ss c).1, []) := by
  induction ss generalizing c with
  | nil => rfl
  | cons s t ih =>
    rw [List.pairwise_cons] at hpw
    have hokt : ∀ s' ∈ t, stepOKb s' = true :=
      fun s' hs' => hok s' (List.mem_cons_of_mem s hs')
    have hoks : stepOKb s = true := hok s (List.mem_cons_self s t)
    -- first run
    simp only [runSteps]
    set c1 := (runStep s c).1 with hc1
    set cfin := (runSteps t c1).1 with hcfin
    -- the guard of `s` is false at the final config of the first run
    have hguard : s.guard (cfgGet cfin s.key) = false := by
      rw [hcfin, cfgGet_runSteps_untouched t s.key hpw.1 c1]
      exact guard_after_runStep s hoks c
    have hstep2 : runStep s cfin = (cfin, []) := by
      unfold runStep
      rw [hguard]
      simp
    rw [hstep2]
    have ht2 := ih hokt hpw.2 c1
    rw [← hcfin] at ht2
    rw [ht2]
    rfl

/-! Per-branch discharge of the rule conditions. -/

theorem storageSteps_ok (label : String) :
    ∀ s ∈ storageSteps label, stepOKb s = true := by
  intro s hs
  simp only [storageSteps, List.mem_cons, List.not_mem_nil, or_false] at hs
  rcases hs with rfl | rfl | rfl | rfl <;> rfl

theorem databaseSteps_ok (label : String) :
    ∀ s ∈ databaseSteps label, stepOKb s = true := by
  intro s hs
  simp only [databaseSteps, List.mem_cons, List.not_mem_nil, or_false] at hs
  rcases hs with rfl | rfl <;> rfl

theorem lambdaSteps_ok (label : String) :
    ∀ s ∈ lambdaSteps label, stepOKb s = true := by
  intro s hs
  simp only [lambdaSteps, List.mem_cons, List.not_mem_nil, or_false] at hs
  rcases hs with rfl | rfl <;> rfl

theorem apiSteps_ok (label : String) :
    ∀ s ∈ apiSteps label, stepOKb s = true := by
  intro s hs
  simp only [apiSteps, List.mem_cons, List.not_mem_nil, or_false] at hs
  rcases hs with rfl | rfl | rfl | rfl <;> rfl

theorem queueSteps_ok (label : String) :
    ∀ s ∈ queueSteps label, stepOKb s = true := by
  intro s hs
  simp only [queueSteps, List.mem_cons, List.not_mem_nil, or_false] at hs
  rcases hs with rfl | rfl <;> rfl

theorem snsSteps_ok (label : String) :
    ∀ s ∈ snsSteps label, stepOKb s = true := by
  intro s hs
  simp only [snsSteps, List.mem_cons, List.not_mem_nil, or_false] at hs
  rcases hs with rfl | rfl <;> rfl

theorem cdnSteps_ok (label : String) :
    ∀ s ∈ cdnSteps label, stepOKb s = true := by
  intro s hs
  simp only [cdnSteps, List.mem_cons, List.not_mem_nil, or_false] at hs
  rcases hs with rfl | rfl <;> rfl

theorem authSteps_ok (label : String) :
    ∀ s ∈ authSteps label, stepOKb s = true := by
  intro s hs
  simp only [authSteps, List.mem_cons, List.not_mem_nil, or_false] at hs
  subst hs
  rfl

theorem glueSteps_ok (label : String) :
    ∀ s ∈ glueSteps label, stepOKb s = true := by
  intro s hs
  simp only [glueSteps, List.mem_cons, List.not_mem_nil, or_false] at hs
  rcases hs with rfl | rfl <;> rfl

theorem eventsSteps_ok (label : String) :
    ∀ s ∈ eventsSteps label, stepOKb s = true := by
  intro s hs
  simp only [eventsSteps, List.mem_cons, List.not_mem_nil, or_false] at hs
  subst hs
  rfl

theorem stepsFor_ok (t label : String) : ∀ s ∈ stepsFor t label, stepOKb s = true := by
  intro s hs
  unfold stepsFor at hs
  repeat' split at hs
  exacts [storageSteps_ok label s hs, databaseSteps_ok label s hs,
    lambdaSteps_ok label s hs, apiSteps_ok label s hs, queueSteps_ok label s hs,
    snsSteps_ok label s hs, cdnSteps_ok label s hs, authSteps_ok label s hs,
    glueSteps_ok label s hs, eventsSteps_ok label s hs,
    absurd hs (List.not_mem_nil s)]

/-- The per-branch rule lists never write an earlier rule's guard key. -/
theorem steps_pairwise_two (a b : Step) (h : a.key ∉ b.sets.map Prod.fst) :
    List.Pairwise (fun x y => x.key ∉ y.sets.map Prod.fst) [a, b] := by
  refine List.Pairwise.cons ?_ (List.Pairwise.cons (fun y hy => absurd hy (List.not_mem_nil y)) List.Pairwise.nil)
  intro y hy
  simp only [List.mem_cons, List.not_mem_nil, or_false] at hy
  subst hy
  exact h

theorem steps_pairwise_one (a : Step) :
    List.Pairwise (fun x y => x.key ∉ y.sets.map Prod.fst) [a] :=
  List.Pairwise.cons (fun y hy => absurd hy (List.not_mem_nil y)) List.Pairwise.nil

theorem steps_pairwise_four (a b c d : Step)
    (hab : a.key ∉ b.sets.map Prod.fst) (hac : a.key ∉ c.sets.map Prod.fst)
    (had : a.key ∉ d.sets.map Prod.fst) (hbc : b.key ∉ c.sets.map Prod.fst)
    (hbd : b.key ∉ d.sets.map Prod.fst) (hcd : c.key ∉ d.sets.map Prod.fst) :
    List.Pairwise (fun x y => x.key ∉ y.sets.map Prod.fst) [a, b, c, d] := by
  refine List.Pairwise.cons ?_
    (List.Pairwise.cons ?_ (steps_pairwise_two c d hcd))
  · intro y hy
    simp only [List.mem_cons, List.not_mem_nil, or_false] at hy
    rcases hy with rfl | rfl | rfl
    · exact hab
    · exact hac
    · exact had
  · intro y hy
    simp only [List.mem_cons, List.not_mem_nil, or_false] at hy
    rcases hy with rfl | rfl
    · exact hbc
    · exact hbd

theorem stepsFor_pairwise (t label : String) :
    (stepsFor t label).Pairwise (fun a b => a.key ∉ b.sets.map Prod.fst) := by
  unfold stepsFor
  split_ifs
  · exact steps_pairwise_four _ _ _ _
      (show ("encryption" : String) ∉ ["block_public_access"] by decide)
      (show ("encryption" : String) ∉ ["versioning"] by decide)
      (show ("encryption" : String) ∉ ["https_only"] by decide)
      (show ("block_public_access" : String) ∉ ["versioning"] by decide)
      (show ("block_public_access" : String) ∉ ["https_only"] by decide)
      (show ("versioning" : String) ∉ ["https_only"] by decide)
  · exact steps_pairwise_two _ _
      (show ("encryption" : String) ∉ ["pitr"] by decide)
  · exact steps_pairwise_two _ _
      (show ("vpc_enabled" : String) ∉ ["tracing"] by decide)
  · exact steps_pairwise_four _ _ _ _
      (show ("cors_origins" : String) ∉ ["waf_enabled"] by decide)
      (show ("cors_origins" : String) ∉ ["throttling"] by decide)
      (show ("cors_origins" : String) ∉ ["access_logging"] by decide)
      (show ("waf_enabled" : String) ∉ ["throttling"] by decide)
      (show ("waf_enabled" : String) ∉ ["access_logging"] by decide)
      (show ("throttling" : String) ∉ ["access_logging"] by decide)
  · exact steps_pairwise_two _ _
      (show ("has_dlq" : String) ∉ ["encryption"] by decide)
  · exact steps_pairwise_two _ _
      (show ("encryption" : String) ∉ ["access_policy"] by decide)
  · exact steps_pairwise_two _ _
      (show ("security_headers" : String) ∉ ["waf_enabled"] by decide)
  · exact steps_pairwise_one _
  · exact steps_pairwise_two _ _
      (show ("encryption" : String) ∉ ["access_control"] by decide)
  · exact steps_pairwise_one _
  · exact List.Pairwise.nil

theorem fixNode_idem (n : Node) : fixNode (fixNode n).1 = ((fixNode n).1, []) := by
  have h := runSteps_idempotent (stepsFor (resolveType n) (fixLabel n))
    (stepsFor_ok _ _) (stepsFor_pairwise _ _) n.data.config
  calc fixNode (fixNode n).1
      = ({ (fixNode n).1 with
            data := { (fixNode n).1.data with
              config := (runSteps (stepsFor (resolveType n) (fixLabel n))
                (fixNode n).1.data.config).1 } },
         (runSteps (stepsFor (resolveType n) (fixLabel n))
           (fixNode n).1.data.config).2) := rfl
    _ = ((fixNode n).1, []) := by
        rw [show (fixNode n).1.data.config =
              (runSteps (stepsFor (resolveType n) (fixLabel n)) n.data.config).1 from rfl,
            h]
        rfl

theorem map_fix_resolve (l : List Node) (t : String) :
    (l.map (fun n => (fixNode n).1)).any (fun n => resolveType n == t) =
      l.any (fun n => resolveType n == t) := by
  induction l with
  | nil => rfl
  | cons a tl ih =>
    simp only [List.map_cons, List.any_cons, ih]
    rfl

theorem fixNode_fst_idem (n : Node) : (fixNode (fixNode n).1).1 = (fixNode n).1 := by
  rw [fixNode_idem n]

theorem fixNode_snd_idem (n : Node) : (fixNode (fixNode n).1).2 = [] := by
  rw [fixNode_idem n]

theorem map_fix_fix (l : List Node) :
    (l.map (fun n => (fixNode n).1)).map (fun n => (fixNode n).1) =
      l.map (fun n => (fixNode n).1) := by
  induction l with
  | nil => rfl
  | cons a tl ih =>
    simp only [List.map_cons, ih, fixNode_fst_idem]

theorem flatMap_fix_nil (l : List Node) :
    (l.map (fun n => (fixNode n).1)).flatMap (fun n => (fixNode n).2) = [] := by
  induction l with
  | nil => rfl
  | cons a tl ih =>
    simp only [List.map_cons, List.flatMap_cons, ih, List.append_nil, fixNode_snd_idem]

/-- A second `analyze_and_fix` pass over an already-fixed node list (whose
graph rule no longer fires) changes nothing and logs nothing. -/
theorem analyzeAndFix_second_run (N1 : List Node) (E1 : List Edge) (hne : N1 ≠ [])
    (hcond : ((N1.any (fun n => resolveType n == "api")) &&
      !(N1.any (fun n => resolveType n == "auth"))) = false) :
    analyzeAndFix ⟨N1.map (fun n => (fixNode n).1), E1⟩ =
      (⟨N1.map (fun n => (fixNode n).1), E1⟩, []) := by
  obtain ⟨a, t, rfl⟩ := List.exists_cons_of_ne_nil hne
  have hC : ((((a :: t).map (fun n => (fixNode n).1)).any
        (fun n => resolveType n == "api")) &&
      !(((a :: t).map (fun n => (fixNode n).1)).any
        (fun n => resolveType n == "auth"))) = false := by
    rw [map_fix_resolve, map_fix_resolve]
    exact hcond
  simp only [analyzeAndFix]
  rw [show (List.map (fun n => (fixNode n).1) (a :: t)).isEmpty = false from rfl, hC]
  simp [map_fix_fix, flatMap_fix_nil, fixNode_fst_idem, fixNode_snd_idem]

/-- C4 — autofix idempotence: on the output of `analyze_and_fix`, a second
run returns the same graph and an empty change log (every rule checks its
config flag before mutating). -/
theorem autofix_idempotent (g : Graph) :
    (analyzeAndFix (analyzeAndFix g).1).2 = [] ∧
    (analyzeAndFix (analyzeAndFix g).1).1 = (analyzeAndFix g).1 := by
  rcases g with ⟨nodes, edges⟩
  rcases hn : nodes with _ | ⟨a, t⟩
  · constructor <;> rfl
  · -- first run on a nonempty node list
    rw [show analyzeAndFix ⟨a :: t, edges⟩ =
        (if ((a :: t).any (fun n => resolveType n == "api")) &&
            !((a :: t).any (fun n => resolveType n == "auth")) then
          (⟨((a :: t) ++ [mkAuthNode (a :: t)]).map (fun n => (fixNode n).1),
             edges ++ authEdgesFor (mkAuthNode (a :: t)).id (a :: t)⟩,
           ["✅ Added Cognito user pool for API authentication"] ++
             ((a :: t) ++ [mkAuthNode (a :: t)]).flatMap (fun n => (fixNode n).2))
        else
          (⟨(a :: t).map (fun n => (fixNode n).1), edges⟩,
           [] ++ (a :: t).flatMap (fun n => (fixNode n).2))) from by
      simp only [analyzeAndFix, List.isEmpty]
      split
      · rename_i hfalse
        exact absurd hfalse (by simp)
      · split <;> rfl]
    split
    · rename_i hcond
      have hsecond := analyzeAndFix_second_run ((a :: t) ++ [mkAuthNode (a :: t)])
        (edges ++ authEdgesFor (mkAuthNode (a :: t)).id (a :: t))
        (by simp)
        (by
          rw [List.any_append, List.any_append]
          have : ([mkAuthNode (a :: t)].any (fun n => resolveType n == "auth")) = true := by
            rfl
          rw [this]
          simp)
      rw [hsecond]
      exact ⟨rfl, rfl⟩
    · rename_i hcond
      have hcond' : (((a :: t).any (fun n => resolveType n == "api")) &&
          !((a :: t).any (fun n => resolveType n == "auth"))) = false :=
        Bool.not_eq_true _ ▸ (by revert hcond; cases ((a :: t).any (fun n => resolveType n == "api")) && !((a :: t).any (fun n => resolveType n == "auth")) <;> simp)
      have hsecond := analyzeAndFix_second_run (a :: t) edges (by simp) hcond'
      rw [hsecond]
      exact ⟨rfl, rfl⟩

/-! ### C3: the auth-synthesis graph rule -/

theorem map_fix_id (l : List Node) :
    (l.map (fun n => (fixNode n).1)).map (fun n => n.id) = l.map (fun n => n.id) := by
  induction l with
  | nil => rfl
  | cons a tl ih =>
    simp only [List.map_cons, ih]
    rfl

/-- `analyze_and_fix` on a nonempty node list, with the graph-level rule
exposed as a single conditional. -/
theorem analyzeAndFix_cons (a : Node) (t : List Node) (edges : List Edge) :
    analyzeAndFix ⟨a :: t, edges⟩ =
      if ((a :: t).any (fun n => resolveType n == "api")) &&
          !((a :: t).any (fun n => resolveType n == "auth")) then
        (⟨((a :: t) ++ [mkAuthNode (a :: t)]).map (fun n => (fixNode n).1),
           edges ++ authEdgesFor (mkAuthNode (a :: t)).id (a :: t)⟩,
         ["✅ Added Cognito user pool for API authentication"] ++
           ((a :: t) ++ [mkAuthNode (a :: t)]).flatMap (fun n => (fixNode n).2))
      else
        (⟨(a :: t).map (fun n => (fixNode n).1), edges⟩,
         [] ++ (a :: t).flatMap (fun n => (fixNode n).2)) := by
  simp only [analyzeAndFix, List.isEmpty]
  split
  · rename_i hfalse
    exact absurd hfalse (by simp)
  · split <;> rfl

/-- C3 counterexample: the graph whose only node has id `"auth-2"` and
explicit `data.type = "api"` resolves to `api` (not `auth`), so the rule
fires and synthesizes a node with id `"auth-2"` — colliding with the
pre-existing node id, contrary to the claim. -/
theorem autofix_auth_id_collision :
    ((analyzeAndFix ⟨[{ id := "auth-2", data := { dtype := some "api" } }], []⟩).1.nodes.map
      (fun n => n.id)) = ["auth-2", "auth-2"] := by decide

/-- C3 (amended) — if some node resolves to `api` and none resolves to
`auth`, `analyze_and_fix` appends exactly one synthesized auth node with id
`auth-{len(nodes)+1}` (an id that may collide with a pre-existing id) and
appends one `"authenticates"` edge from it to every node whose explicit
`data.type` equals `"api"` (nodes that resolve to `api` only via keywords
get no edge); a graph containing an auth-resolving node gains no
synthesized node. -/
theorem autofix_auth_synthesis (g : Graph) :
    (g.nodes.any (fun n => resolveType n == "api") = true →
     g.nodes.any (fun n => resolveType n == "auth") = false →
      (analyzeAndFix g).1.nodes.map (fun n => n.id) =
        g.nodes.map (fun n => n.id) ++ ["auth-" ++ toString (g.nodes.length + 1)] ∧
      (analyzeAndFix g).1.edges =
        g.edges ++ authEdgesFor ("auth-" ++ toString (g.nodes.length + 1)) g.nodes ∧
      resolveType (mkAuthNode g.nodes) = "auth") ∧
    (g.nodes.any (fun n => resolveType n == "auth") = true →
      (analyzeAndFix g).1.nodes.map (fun n => n.id) = g.nodes.map (fun n => n.id) ∧
      (analyzeAndFix g).1.edges = g.edges) := by
  rcases g with ⟨nodes, edges⟩
  constructor
  · intro hapi hauth
    obtain ⟨x, hx, -⟩ := List.any_eq_true.mp hapi
    obtain ⟨a, t, rfl⟩ := List.exists_cons_of_ne_nil (List.ne_nil_of_mem hx)
    rw [analyzeAndFix_cons, if_pos (by rw [hapi, hauth]; rfl)]
    refine ⟨?_, rfl, rfl⟩
    rw [map_fix_id, List.map_append]
    rfl
  · intro hauth
    obtain ⟨x, hx, -⟩ := List.any_eq_true.mp hauth
    obtain ⟨a, t, rfl⟩ := List.exists_cons_of_ne_nil (List.ne_nil_of_mem hx)
    rw [analyzeAndFix_cons, if_neg (by rw [hauth]; simp)]
    exact ⟨map_fix_id _, rfl⟩

/-- C3 witness: on the one-`api`-node graph the rule appends `auth-2` and
one `authenticates` edge to the `api` node. -/
theorem autofix_auth_synthesis_witness :
    (analyzeAndFix oneApiGraph).1.nodes.map (fun n => n.id) = ["api-1", "auth-2"] ∧
    (analyzeAndFix oneApiGraph).1.edges =
      authEdgesFor ("auth-" ++ toString 2) oneApiGraph.nodes := by
  obtain ⟨h1, h2, _⟩ := (autofix_auth_synthesis oneApiGraph).1 (by decide) (by decide)
  constructor
  · rw [h1]
    rfl
  · rw [h2]
    rfl

/-! ### `SecurityAutoFix.get_security_score` (services/security_autofix.py)

The seven weighted categories, in source order.  Proportional categories
and the final percentage compute `int((a / len) * weight)` in Python, i.e.
in IEEE-754 double arithmetic: a correctly-rounded division, a
correctly-rounded multiplication, then truncation toward zero.  `pyIntDivMul`
models that exactly with integer arithmetic (round-to-nearest, ties to
even, 53-bit mantissa); e.g. `int((29 / 100) * 100)` is 28, not 29.
-/

/-- Round `a / b` to the nearest integer, ties to even (`b > 0`). -/
def rndDiv (a b : Nat) : Nat :=
  let q := a / b
  let r := a % b
  if b < 2 * r then q + 1
  else if 2 * r < b then q
  else if q % 2 = 0 then q else q + 1

def bitLenAux : Nat → Nat → Nat
  | 0, _ => 0
  | fuel + 1, n => if n = 0 then 0 else bitLenAux fuel (n / 2) + 1

/-- Number of binary digits (correct for `n < 2^128`). -/
def bitLen (n : Nat) : Nat := bitLenAux 128 n

/-- A nonnegative binary64 value `m * 2^e`; normal numbers carry
`2^52 ≤ m < 2^53`. -/
structure FP where
  m : Nat
  e : Int
  deriving DecidableEq, Repr

/-- Search the exponent with `2^52 ≤ a/(b*2^e) < 2^53`, then round the
mantissa once (ties to even). -/
def fpDivAux : Nat → Nat → Nat → Int → FP
  | 0, _, _, _ => ⟨0, 0⟩
  | fuel + 1, a, b, e =>
    let q := if 0 ≤ e then a / (b * 2 ^ e.toNat) else a * 2 ^ (-e).toNat / b
    if q < 4503599627370496 then fpDivAux fuel a b (e - 1)
    else if 9007199254740992 ≤ q then fpDivAux fuel a b (e + 1)
    else
      let m := if 0 ≤ e then rndDiv a (b * 2 ^ e.toNat) else rndDiv (a * 2 ^ (-e).toNat) b
      if 9007199254740992 ≤ m then ⟨m / 2, e + 1⟩ else ⟨m, e⟩

/-- Correctly-rounded binary64 division of two naturals. -/
def fpDiv (a b : Nat) : FP :=
  if a = 0 ∨ b = 0 then ⟨0, 0⟩ else fpDivAux 300 a b 0

/-- Round the value `m0 * 2^e` to binary64 (one rounding step). -/
def fpOfMantissaExp (m0 : Nat) (e : Int) : FP :=
  if m0 = 0 then ⟨0, 0⟩
  else
    let L := bitLen m0
    if L ≤ 53 then ⟨m0 * 2 ^ (53 - L), e - ((53 - L : Nat) : Int)⟩
    else
      let k := L - 53
      let m := rndDiv m0 (2 ^ k)
      if 9007199254740992 ≤ m then ⟨m / 2, e + k + 1⟩ else ⟨m, e + k⟩

/-- Correctly-rounded binary64 multiplication by a natural. -/
def fpMulNat (x : FP) (k : Nat) : FP :=
  if x.m = 0 ∨ k = 0 then ⟨0, 0⟩ else fpOfMantissaExp (x.m * k) x.e

/-- `int(x)` for a nonnegative binary64 value. -/
def fpFloor (x : FP) : Nat :=
  if 0 ≤ x.e then x.m * 2 ^ x.e.toNat else x.m / 2 ^ (-x.e).toNat

/-- Python `int((a / b) * k)` on integers, via binary64 arithmetic. -/
def pyIntDivMul (a b k : Nat) : Nat := fpFloor (fpMulNat (fpDiv a b) k)

/-- Auth category (20 points): `has_api and has_auth`, `elif not has_api`. -/
def scoreCat1 (nodes : List Node) : Nat :=
  let hasAuth := nodes.any (fun n => resolveType n == "auth")
  let hasApi := nodes.any (fun n => resolveType n == "api")
  if hasApi && hasAuth then 20
  else if !hasApi then 20
  else 0

/-- KMS encryption on storage/database (20 points).  Python's
`encryption in (True, "KMS")` also matches the integer 1, since
`1 == True` in Python. -/
def scoreCat2 (nodes : List Node) : Nat :=
  let sdb := nodes.filter (fun n => decide (resolveType n ∈ ["storage", "database"]))
  if sdb.isEmpty then 20
  else
    let kms := (sdb.filter (fun n =>
      (cfgGet n.data.config "encryption" == some (.b true)) ||
      (cfgGet n.data.config "encryption" == some (.i 1)) ||
      (cfgGet n.data.config "encryption" == some (.s "KMS")))).length
    pyIntDivMul kms sdb.length 20

/-- Block public access on storage (15 points). -/
def scoreCat3 (nodes : List Node) : Nat :=
  let st := nodes.filter (fun n => resolveType n == "storage")
  if st.isEmpty then 15
  else
    let secured := (st.filter (fun n => truthy (cfgGet n.data.config "block_public_access"))).length
    pyIntDivMul secured st.length 15

/-- Lambda in VPC (15 points). -/
def scoreCat4 (nodes : List Node) : Nat :=
  let lam := nodes.filter (fun n => resolveType n == "lambda")
  if lam.isEmpty then 15
  else
    let inVpc := (lam.filter (fun n => truthy (cfgGet n.data.config "vpc_enabled"))).length
    pyIntDivMul inVpc lam.length 15

/-- Dead-letter queue on queues (10 points). -/
def scoreCat5 (nodes : List Node) : Nat :=
  let q := nodes.filter (fun n => resolveType n == "queue")
  if q.isEmpty then 10
  else
    let withDlq := (q.filter (fun n => truthy (cfgGet n.data.config "has_dlq"))).length
    pyIntDivMul withDlq q.length 10

/-- WAF on APIs (10 points). -/
def scoreCat6 (nodes : List Node) : Nat :=
  let ap := nodes.filter (fun n => resolveType n == "api")
  if ap.isEmpty then 10
  else
    let withWaf := (ap.filter (fun n => truthy (cfgGet n.data.config "waf_enabled"))).length
    pyIntDivMul withWaf ap.length 10

/-- Point-in-time recovery on databases (10 points). -/
def scoreCat7 (nodes : List Node) : Nat :=
  let db := nodes.filter (fun n => resolveType n == "database")
  if db.isEmpty then 10
  else
    let withPitr := (db.filter (fun n => truthy (cfgGet n.data.config "pitr"))).length
    pyIntDivMul withPitr db.length 10

structure SecurityScore where
  score : Nat
  max_score : Nat
  percentage : Nat
  deriving DecidableEq, Repr

/-- `SecurityAutoFix.get_security_score(graph)`;
`percentage = int((score / max_score) * 100) if max_score > 0 else 0`. -/
def getSecurityScore (g : Graph) : SecurityScore :=
  if g.nodes.isEmpty then ⟨0, 0, 0⟩
  else
    let maxScore := 20 + 20 + 15 + 15 + 10 + 10 + 10
    let s := scoreCat1 g.nodes + scoreCat2 g.nodes + scoreCat3 g.nodes +
      scoreCat4 g.nodes + scoreCat5 g.nodes + scoreCat6 g.nodes + scoreCat7 g.nodes
    ⟨s, maxScore, if maxScore > 0 then pyIntDivMul s maxScore 100 else 0⟩

/-- C7 counterexample: the empty graph short-circuits to
`{score: 0, max_score: 0, percentage: 0}` — no category awards its weight,
contradicting the claim that the empty graph gets full vacuous credit. -/
theorem securityScore_empty_graph_no_vacuous_credit :
    getSecurityScore ⟨[], []⟩ = ⟨0, 0, 0⟩ ∧
    ¬((getSecurityScore ⟨[], []⟩).score = 100 ∧
      (getSecurityScore ⟨[], []⟩).percentage = 100) := by decide

set_option maxHeartbeats 1000000 in
set_option maxRecDepth 100000 in
/-- C7 (amended) — for every nonempty graph, `max_score = 100`, the score is
the sum of the seven category scores, and each category with zero applicable
nodes awards its full weight; `percentage` is `int((score / 100) * 100)`
computed in binary64 floats, which on the range 0..100 equals the score
except at 29, 57 and 58, where the float rounding yields score − 1.  The
empty graph instead short-circuits to score 0, max_score 0, percentage 0. -/
theorem securityScore_vacuous_categories (g : Graph) (hne : g.nodes ≠ []) :
    (getSecurityScore g).max_score = 100 ∧
    (getSecurityScore g).score =
      scoreCat1 g.nodes + scoreCat2 g.nodes + scoreCat3 g.nodes + scoreCat4 g.nodes +
        scoreCat5 g.nodes + scoreCat6 g.nodes + scoreCat7 g.nodes ∧
    (g.nodes.any (fun n => resolveType n == "api") = false → scoreCat1 g.nodes = 20) ∧
    ((g.nodes.filter (fun n => decide (resolveType n ∈ ["storage", "database"]))).isEmpty =
        true → scoreCat2 g.nodes = 20) ∧
    ((g.nodes.filter (fun n => resolveType n == "storage")).isEmpty = true →
      scoreCat3 g.nodes = 15) ∧
    ((g.nodes.filter (fun n => resolveType n == "lambda")).isEmpty = true →
      scoreCat4 g.nodes = 15) ∧
    ((g.nodes.filter (fun n => resolveType n == "queue")).isEmpty = true →
      scoreCat5 g.nodes = 10) ∧
    ((g.nodes.filter (fun n => resolveType n == "api")).isEmpty = true →
      scoreCat6 g.nodes = 10) ∧
    ((g.nodes.filter (fun n => resolveType n == "database")).isEmpty = true →
      scoreCat7 g.nodes = 10) ∧
    (getSecurityScore g).percentage = pyIntDivMul (getSecurityScore g).score 100 100 ∧
    (∀ s : Nat, s ≤ 100 →
      pyIntDivMul s 100 100 = if s = 29 ∨ s = 57 ∨ s = 58 then s - 1 else s) := by
  obtain ⟨a, t, hg⟩ := List.exists_cons_of_ne_nil hne
  have hie : g.nodes.isEmpty = false := by rw [hg]; rfl
  refine ⟨?_, ?_, ?_, ?_, ?_, ?_, ?_, ?_, ?_, ?_, ?_⟩
  · simp [getSecurityScore, hie]
  · simp [getSecurityScore, hie]
  · intro h; simp [scoreCat1, h]
  · intro h; simp only [scoreCat2, h, if_true]
  · intro h; simp [scoreCat3, h]
  · intro h; simp [scoreCat4, h]
  · intro h; simp [scoreCat5, h]
  · intro h; simp [scoreCat6, h]
  · intro h; simp [scoreCat7, h]
  · simp only [getSecurityScore, hie, Bool.false_eq_true, if_false]
    norm_num
  · decide

/-- A nonempty graph with no applicable node in any category. -/
def cdnOnlyGraph : Graph := ⟨[{ id := "cdn-1", data := { dtype := some "cdn" } }], []⟩

/-- C7 witness: on a one-`cdn`-node graph every category is vacuous and the
percentage is the float truncation of the score; at the reachable score 29
the float arithmetic returns 28. -/
theorem securityScore_vacuous_categories_witness :
    (getSecurityScore cdnOnlyGraph).max_score = 100 ∧
    scoreCat1 cdnOnlyGraph.nodes = 20 ∧
    scoreCat2 cdnOnlyGraph.nodes = 20 ∧
    (getSecurityScore cdnOnlyGraph).percentage =
      pyIntDivMul (getSecurityScore cdnOnlyGraph).score 100 100 ∧
    pyIntDivMul 29 100 100 = 28 := by
  obtain ⟨h1, _, h3, h4, _, _, _, _, _, h10, h11⟩ :=
    securityScore_vacuous_categories cdnOnlyGraph (by decide)
  refine ⟨h1, h3 (by decide), h4 (by decide), h10, ?_⟩
  have h29 := h11 29 (by norm_num)
  simpa using h29

/-! ### `security_gate` (graph/nodes.py lines 451-456)

The router reads only `state["security_review"]`; the `skip_security`
field declared in `graph/state.py` ("Skip security review (user marked
issues as resolved)") is never consulted anywhere in the codebase.
-/

/-- The slice of `GraphState` the security-gate router can see. -/
structure GateState where
  security_review : Option Review := none
  skip_security : Bool := false
  deriving Repr

/-- `security_gate(state)`. -/
def securityGate (state : GateState) : String :=
  match state.security_review with
  | some r => if r.passed then "passed" else "failed"
  | none => "failed"

/-- A review that failed. -/
def failedReview : Review :=
  { security_score := 40, passed := false, critical_issues := [], warnings := [],
    recommendations := [], compliant_services := [], config_changes := [] }

/-- C5 — the gate routes on `review.passed` alone: with a failed review and
`skip_security = true` it still returns `"failed"` (terminating the run),
and flipping `skip_security` never changes the routing; the caller-supplied
skip flag claimed by the spec is dead. -/
theorem security_gate_ignores_skip_flag :
    securityGate { security_review := some failedReview, skip_security := true } =
      "failed" ∧
    (∀ st : GateState,
      securityGate st = securityGate { st with skip_security := !st.skip_security }) ∧
    (∀ st : GateState,
      securityGate st = "passed" ↔
        ∃ r, st.security_review = some r ∧ r.passed = true) := by
  refine ⟨rfl, fun st => rfl, fun st => ?_⟩
  cases hrev : st.security_review with
  | none => simp [securityGate, hrev]
  | some r =>
    cases hp : r.passed with
    | false => simp [securityGate, hrev, hp]
    | true => simp [securityGate, hrev, hp]

/-! ### `generate_node_positions` (graph/nodes.py lines 134-184) -/

/-- `type_columns.get(t, 2)`. -/
def typeCol (t : String) : Nat :=
  if t = "frontend" then 0
  else if t = "cdn" then 0
  else if t = "auth" then 1
  else if t = "api" then 2
  else if t = "lambda" then 3
  else if t = "workflow" then 3
  else if t = "queue" then 4
  else if t = "events" then 4
  else if t = "notification" then 4
  else if t = "stream" then 5
  else if t = "database" then 6
  else if t = "storage" then 6
  else 2

/-- The keys of `type_columns`. -/
def laneTypes : List String :=
  ["frontend", "cdn", "auth", "api", "lambda", "workflow", "queue", "events",
   "notification", "stream", "database", "storage"]

/-- Lane of an existing node: `node.get("data", {}).get("type", "api")`. -/
def existingLane (n : Node) : Nat := typeCol (n.data.dtype.getD "api")

/-- Lane of a new (draft) node: `node.get("type", "api")`. -/
def newLane (n : Node) : Nat := typeCol (n.ntype.getD "api")

/-- Seed counts: existing nodes already occupying each lane. -/
def seedCounts (existing : List Node) (lane : Nat) : Nat :=
  (existing.filter (fun n => existingLane n == lane)).length

/-- The output dict built for one placed node
(`{id, type, position, data:{label, type, description}}`). -/
def positionNode (n : Node) (col row : Nat) : Node :=
  { id := n.id,
    ntype := some (n.ntype.getD "api"),
    position := some (50 + col * 320, 50 + row * 200),
    data := { dtype := some (n.ntype.getD "api"),
              dlabel := some (n.nlabel.getD "Component"),
              config := [],
              ddesc := some (n.ndesc.getD "") } }

/-- The placement loop, threading the per-lane counters. -/
def genPosAux (counts : Nat → Nat) : List Node → List Node
  | [] => []
  | n :: rest =>
    let col := newLane n
    let row := counts col
    positionNode n col row ::
      genPosAux (fun l => if l = col then counts l + 1 else counts l) rest

/-- `generate_node_positions(nodes, existing_nodes)`. -/
def generateNodePositions (nodes existing : List Node) : List Node :=
  genPosAux (seedCounts existing) nodes

/-- Number of earlier new nodes (strictly before index `i`) in lane `lane`. -/
def priorInLane (nodes : List Node) (i : Nat) (lane : Nat) : Nat :=
  ((nodes.take i).filter (fun m => newLane m == lane)).length

theorem genPosAux_getElem (nodes : List Node) (counts : Nat → Nat) (i : Nat)
    (h : i < nodes.length) :
    (genPosAux counts nodes)[i]? =
      some (positionNode nodes[i] (newLane nodes[i])
        (counts (newLane nodes[i]) + priorInLane nodes i (newLane nodes[i]))) := by
  induction nodes generalizing counts i with
  | nil => exact absurd h (by simp)
  | cons n rest ih =>
    cases i with
    | zero =>
      simp [genPosAux, priorInLane]
    | succ i =>
      have hi : i < rest.length := Nat.lt_of_succ_lt_succ h
      simp only [genPosAux, List.getElem?_cons_succ]
      rw [ih _ i hi]
      simp only [List.getElem_cons_succ]
      congr 2
      set lane := newLane rest[i] with hlane
      by_cases hc : lane = newLane n
      · rw [if_pos hc]
        have hpl : priorInLane (n :: rest) (i + 1) lane =
            priorInLane rest i lane + 1 := by
          simp only [priorInLane, List.take_succ_cons, List.filter_cons]
          rw [if_pos (by simp [hc])]
          simp [Nat.add_comm]
        rw [hpl]
        omega
      · rw [if_neg hc]
        have hpl : priorInLane (n :: rest) (i + 1) lane = priorInLane rest i lane := by
          simp only [priorInLane, List.take_succ_cons, List.filter_cons]
          rw [if_neg (by simp; exact fun hh => hc hh.symm)]
        rw [hpl]

theorem priorInLane_succ (nodes : List Node) (i : Nat) (lane : Nat)
    (h : i < nodes.length) :
    priorInLane nodes (i + 1) lane =
      priorInLane nodes i lane + (if newLane nodes[i] == lane then 1 else 0) := by
  simp only [priorInLane, List.take_succ, List.getElem?_eq_getElem h]
  simp only [Option.toList_some, List.filter_append, List.length_append]
  congr 1
  cases hb : (newLane nodes[i] == lane) <;> simp [List.filter_cons, hb]

theorem priorInLane_mono (nodes : List Node) (lane : Nat) (i j : Nat) (hij : i ≤ j)
    (hj : j ≤ nodes.length) :
    priorInLane nodes i lane ≤ priorInLane nodes j lane := by
  induction j with
  | zero =>
    obtain rfl : i = 0 := Nat.le_zero.mp hij
    exact Nat.le_refl _
  | succ j ihj =>
    rcases Nat.lt_or_ge i (j + 1) with hlt | hge
    · have hjq : j < nodes.length := Nat.lt_of_succ_le hj
      have h1 : priorInLane nodes i lane ≤ priorInLane nodes j lane :=
        ihj (Nat.le_of_lt_succ hlt) (Nat.le_of_lt hjq)
      rw [priorInLane_succ nodes j lane hjq]
      omega
    · obtain rfl : i = j + 1 := Nat.le_antisymm hge (by omega) ▸ rfl
      exact Nat.le_refl _

theorem priorInLane_strict (nodes : List Node) (lane : Nat) (i j : Nat) (hij : i < j)
    (hj : j ≤ nodes.length) (hi : i < nodes.length)
    (hlane : newLane nodes[i] = lane) :
    priorInLane nodes i lane < priorInLane nodes j lane := by
  have hstep : priorInLane nodes (i + 1) lane = priorInLane nodes i lane + 1 := by
    rw [priorInLane_succ nodes i lane hi]
    simp [hlane]
  have hmono : priorInLane nodes (i + 1) lane ≤ priorInLane nodes j lane :=
    priorInLane_mono nodes lane (i + 1) j hij hj
  omega

/-- C8 — `generate_node_positions` places the `i`-th new node at
`x = 50 + lane*320`, `y = 50 + rowCounts[lane]*200` where `rowCounts` is
seeded from the existing nodes and incremented after each placement; no two
nodes placed in the same lane share both coordinates; an unrecognized type
lands in lane 2. -/
theorem generate_node_positions_spec (nodes existing : List Node) :
    (∀ i, (h : i < nodes.length) →
      (generateNodePositions nodes existing)[i]? =
        some (positionNode nodes[i] (newLane nodes[i])
          (seedCounts existing (newLane nodes[i]) +
            priorInLane nodes i (newLane nodes[i])))) ∧
    (∀ i j, (hi : i < nodes.length) → (hj : j < nodes.length) → i ≠ j →
      newLane nodes[i] = newLane nodes[j] →
      ((generateNodePositions nodes existing)[i]?).map (fun n => n.position) ≠
        ((generateNodePositions nodes existing)[j]?).map (fun n => n.position)) ∧
    (∀ t : String, t ∉ laneTypes → typeCol t = 2) := by
  refine ⟨fun i h => genPosAux_getElem nodes (seedCounts existing) i h, ?_, ?_⟩
  · have key : ∀ i j, (hi : i < nodes.length) → (hj : j < nodes.length) → i < j →
        newLane nodes[i] = newLane nodes[j] →
        ((generateNodePositions nodes existing)[i]?).map (fun n => n.position) ≠
          ((generateNodePositions nodes existing)[j]?).map (fun n => n.position) := by
      intro i j hi hj hij hlane
      simp only [generateNodePositions]
      rw [genPosAux_getElem nodes _ i hi, genPosAux_getElem nodes _ j hj]
      simp only [Option.map_some']
      rw [show (positionNode nodes[i] (newLane nodes[i])
            (seedCounts existing (newLane nodes[i]) +
              priorInLane nodes i (newLane nodes[i]))).position =
          some (50 + newLane nodes[i] * 320,
            50 + (seedCounts existing (newLane nodes[i]) +
              priorInLane nodes i (newLane nodes[i])) * 200) from rfl,
        show (positionNode nodes[j] (newLane nodes[j])
            (seedCounts existing (newLane nodes[j]) +
              priorInLane nodes j (newLane nodes[j]))).position =
          some (50 + newLane nodes[j] * 320,
            50 + (seedCounts existing (newLane nodes[j]) +
              priorInLane nodes j (newLane nodes[j])) * 200) from rfl]
      intro hcontra
      simp only [Option.some.injEq, Prod.mk.injEq] at hcontra
      have hy := hcontra.2
      have hrows : seedCounts existing (newLane nodes[i]) +
            priorInLane nodes i (newLane nodes[i]) =
          seedCounts existing (newLane nodes[j]) +
            priorInLane nodes j (newLane nodes[j]) := by
        omega
      rw [hlane] at hrows
      have hstrict := priorInLane_strict nodes (newLane nodes[j]) i j hij
        (Nat.le_of_lt hj) hi hlane
      omega
    intro i j hi hj hne hlane
    rcases Nat.lt_or_ge i j with hlt | hge
    · exact key i j hi hj hlt hlane
    · have hjq : j < i := Nat.lt_of_le_of_ne hge (fun hh => hne hh.symm)
      exact fun hc => key j i hj hi hjq hlane.symm hc.symm
  · intro t ht
    simp only [laneTypes, List.mem_cons, List.not_mem_nil, or_false, not_or] at ht
    obtain ⟨h1, h2, h3, h4, h5, h6, h7, h8, h9, h10, h11, h12⟩ := ht
    simp [typeCol, h1, h2, h3, h4, h5, h6, h7, h8, h9, h10, h11, h12]

/-- Two draft lambda nodes, as produced by the architecture-drafting step. -/
def draftLambda (i : String) : Node := { id := i, ntype := some "lambda" }

/-- C8 witness: two lambda drafts on an empty canvas land at
(1010, 50) and (1010, 250) — same lane, distinct positions. -/
theorem generate_node_positions_spec_witness :
    (generateNodePositions [draftLambda "fn-1", draftLambda "fn-2"] [])[0]? =
      some (positionNode (draftLambda "fn-1") 3 0) ∧
    ((generateNodePositions [draftLambda "fn-1", draftLambda "fn-2"] [])[0]?).map
        (fun n => n.position) ≠
      ((generateNodePositions [draftLambda "fn-1", draftLambda "fn-2"] [])[1]?).map
        (fun n => n.position) ∧
    typeCol "unknown-service" = 2 := by
  obtain ⟨hformula, hoverlap, hlane2⟩ :=
    generate_node_positions_spec [draftLambda "fn-1", draftLambda "fn-2"] []
  refine ⟨?_, ?_, ?_⟩
  · rw [hformula 0 (by decide)]
    rfl
  · exact hoverlap 0 1 (by decide) (by decide) (by decide) (by decide)
  · exact hlane2 "unknown-service" (by decide)

/-! ### `StackSplitter.split_by_layer` (services/stack_splitter.py) -/

inductive Layer where
  | network
  | data
  | compute
  | frontend
  deriving DecidableEq, Repr

def layerName : Layer → String
  | .network => "network"
  | .data => "data"
  | .compute => "compute"
  | .frontend => "frontend"

/-- The `if/elif` chain categorizing one node (first match wins, default
`compute`). -/
def layerOf (n : Node) : Layer :=
  let t := n.data.dtype.getD ""
  if t ∈ ["vpc", "subnet", "security-group"] then .network
  else if t ∈ ["database", "storage", "cache"] then .data
  else if t ∈ ["lambda", "ecs", "batch"] then .compute
  else if t ∈ ["frontend", "cdn", "api", "auth"] then .frontend
  else .compute

/-- The node list of one layer bucket (appends in iteration order =
filter). -/
def layerNodes (nodes : List Node) (l : Layer) : List Node :=
  nodes.filter (fun n => layerOf n == l)

/-- `_find_node_stack(node_id, stacks)`: scan the stacks in insertion order
(network, data, compute, frontend); `""` (not found) is `none`. -/
def findNodeStack (nodes : List Node) (id : String) : Option Layer :=
  if (layerNodes nodes .network).any (fun n => n.id == id) then some .network
  else if (layerNodes nodes .data).any (fun n => n.id == id) then some .data
  else if (layerNodes nodes .compute).any (fun n => n.id == id) then some .compute
  else if (layerNodes nodes .frontend).any (fun n => n.id == id) then some .frontend
  else none

/-- The edge list of one layer: an edge is appended to its source's stack,
and to its target's stack when that differs from the source's. -/
def layerEdges (nodes : List Node) (edges : List Edge) (l : Layer) : List Edge :=
  edges.filter (fun e =>
    (findNodeStack nodes e.source == some l) ||
    ((findNodeStack nodes e.target == some l) &&
      !(findNodeStack nodes e.target == findNodeStack nodes e.source)))

structure Stack where
  nodes : List Node
  edges : List Edge
  deriving DecidableEq, Repr

/-- `StackSplitter.split_by_layer(nodes, edges)`: the four fixed stacks in
insertion order, with empty stacks dropped at the end. -/
def splitByLayer (nodes : List Node) (edges : List Edge) : List (String × Stack) :=
  ([Layer.network, .data, .compute, .frontend].map
    (fun l => (layerName l, Stack.mk (layerNodes nodes l) (layerEdges nodes edges l)))).filter
    (fun p => !p.2.nodes.isEmpty)

theorem mem_layerNodes (nodes : List Node) (l : Layer) (n : Node) :
    n ∈ layerNodes nodes l ↔ n ∈ nodes ∧ layerOf n = l := by
  simp [layerNodes]

theorem owns_iff (nodes : List Node) (l : Layer) (id : String) :
    ((layerNodes nodes l).any (fun m => m.id == id) = true) ↔
      ∃ n ∈ nodes, layerOf n = l ∧ n.id = id := by
  simp only [List.any_eq_true, mem_layerNodes]
  constructor
  · rintro ⟨n, ⟨hn, hl⟩, hid⟩
    exact ⟨n, hn, hl, by simpa using hid⟩
  · rintro ⟨n, hn, hl, hid⟩
    exact ⟨n, ⟨hn, hl⟩, by simpa using hid⟩

theorem owns_unique (nodes : List Node)
    (hnodup : (nodes.map (fun n => n.id)).Nodup) (l l' : Layer) (id : String)
    (h : (layerNodes nodes l).any (fun m => m.id == id) = true)
    (h' : (layerNodes nodes l').any (fun m => m.id == id) = true) : l = l' := by
  obtain ⟨n, hn, hl, hid⟩ := (owns_iff nodes l id).mp h
  obtain ⟨n', hn', hl', hid'⟩ := (owns_iff nodes l' id).mp h'
  have : n = n' := by
    have := List.inj_on_of_nodup_map hnodup hn hn' (by rw [hid, hid'])
    exact this
  subst this
  rw [← hl, ← hl']

theorem findNodeStack_eq_some_iff (nodes : List Node)
    (hnodup : (nodes.map (fun n => n.id)).Nodup) (l : Layer) (id : String) :
    findNodeStack nodes id = some l ↔
      ((layerNodes nodes l).any (fun m => m.id == id) = true) := by
  constructor
  · intro h
    unfold findNodeStack at h
    split_ifs at h with h1 h2 h3 h4
    · injection h with h
      subst h
      assumption
    · injection h with h
      subst h
      assumption
    · injection h with h
      subst h
      assumption
    · injection h with h
      subst h
      assumption
  · intro h
    unfold findNodeStack
    split_ifs with h1 h2 h3 h4
    · rw [owns_unique nodes hnodup _ _ id h1 h]
    · rw [owns_unique nodes hnodup _ _ id h2 h]
    · rw [owns_unique nodes hnodup _ _ id h3 h]
    · rw [owns_unique nodes hnodup _ _ id h4 h]
    · cases l <;> simp_all

/-- C9 — `split_by_layer` assigns every node to exactly one of the four
layers (unrecognized types fall into `compute`), appends each edge to the
edge list of every layer owning at least one endpoint (a cross-layer edge
thus lands in exactly the two layers of its endpoints), and omits layers
with zero nodes from the result. -/
theorem split_by_layer_spec (nodes : List Node) (edges : List Edge)
    (hnodup : (nodes.map (fun n => n.id)).Nodup) :
    (∀ n ∈ nodes, n ∈ layerNodes nodes (layerOf n) ∧
      ∀ l, l ≠ layerOf n → n ∉ layerNodes nodes l) ∧
    (∀ n : Node,
      n.data.dtype.getD "" ∉
        ["vpc", "subnet", "security-group", "database", "storage", "cache",
         "lambda", "ecs", "batch", "frontend", "cdn", "api", "auth"] →
      layerOf n = .compute) ∧
    (∀ e ∈ edges, ∀ l, e ∈ layerEdges nodes edges l ↔
      ∃ n ∈ layerNodes nodes l, n.id = e.source ∨ n.id = e.target) ∧
    (∀ p ∈ splitByLayer nodes edges, p.2.nodes ≠ []) ∧
    (∀ l, layerNodes nodes l ≠ [] →
      (layerName l, Stack.mk (layerNodes nodes l) (layerEdges nodes edges l)) ∈
        splitByLayer nodes edges) := by
  refine ⟨?_, ?_, ?_, ?_, ?_⟩
  · intro n hn
    refine ⟨(mem_layerNodes nodes _ n).mpr ⟨hn, rfl⟩, fun l hl hmem => ?_⟩
    exact hl ((mem_layerNodes nodes l n).mp hmem).2.symm
  · intro n ht
    simp only [List.mem_cons, List.not_mem_nil, or_false, not_or] at ht
    obtain ⟨h1, h2, h3, h4, h5, h6, h7, h8, h9, h10, h11, h12, h13⟩ := ht
    simp [layerOf, h1, h2, h3, h4, h5, h6, h7, h8, h9, h10, h11, h12, h13]
  · intro e he l
    have howns : ∀ idv : String,
        ((layerNodes nodes l).any (fun m => m.id == idv) = true) ↔
          ∃ n ∈ layerNodes nodes l, n.id = idv := by
      intro idv
      simp [List.any_eq_true]
    constructor
    · intro hmem
      have := (List.mem_filter.mp hmem).2
      simp only [Bool.or_eq_true, Bool.and_eq_true, beq_iff_eq] at this
      rcases this with hsrc | ⟨htgt, _⟩
      · obtain ⟨n, hn, hid⟩ :=
          (howns e.source).mp ((findNodeStack_eq_some_iff nodes hnodup l e.source).mp hsrc)
        exact ⟨n, hn, Or.inl hid⟩
      · obtain ⟨n, hn, hid⟩ :=
          (howns e.target).mp ((findNodeStack_eq_some_iff nodes hnodup l e.target).mp htgt)
        exact ⟨n, hn, Or.inr hid⟩
    · rintro ⟨n, hn, hid | hid⟩
      · have hsrc : findNodeStack nodes e.source = some l := by
          rw [findNodeStack_eq_some_iff nodes hnodup]
          exact (howns e.source).mpr ⟨n, hn, hid⟩
        refine List.mem_filter.mpr ⟨he, ?_⟩
        simp [hsrc]
      · have htgt : findNodeStack nodes e.target = some l := by
          rw [findNodeStack_eq_some_iff nodes hnodup]
          exact (howns e.target).mpr ⟨n, hn, hid⟩
        refine List.mem_filter.mpr ⟨he, ?_⟩
        cases hsrc : findNodeStack nodes e.source with
        | none => simp [htgt, hsrc]
        | some l' =>
          by_cases hll : l' = l
          · subst hll
            simp [htgt, hsrc]
          · simp [htgt, hsrc]
            exact Or.inr (fun hh => hll hh.symm)
  · intro p hp
    have := (List.mem_filter.mp hp).2
    simpa using this
  · intro l hl
    refine List.mem_filter.mpr ⟨?_, by simpa using hl⟩
    apply List.mem_map.mpr
    refine ⟨l, ?_, rfl⟩
    cases l <;> simp

/-- C9 witness: a lambda→database edge crosses the compute and data layers
and lands in both edge lists. -/
theorem split_by_layer_spec_witness :
    (let lamNode : Node := { id := "fn", data := { dtype := some "lambda" } }
     let dbNode : Node := { id := "db", data := { dtype := some "database" } }
     let e : Edge := { id := "e-fn-db", source := "fn", target := "db" }
     e ∈ layerEdges [lamNode, dbNode] [e] .compute ∧
     e ∈ layerEdges [lamNode, dbNode] [e] .data ∧
     e ∉ layerEdges [lamNode, dbNode] [e] .network ∧
     ("network", Stack.mk (layerNodes [lamNode, dbNode] .network)
        (layerEdges [lamNode, dbNode] [e] .network)) ∉
       splitByLayer [lamNode, dbNode] [e]) := by
  intro lamNode dbNode e
  obtain ⟨hpart, hdefault, hedges, homit, hmem⟩ :=
    split_by_layer_spec [lamNode, dbNode] [e] (by decide)
  refine ⟨?_, ?_, ?_, ?_⟩
  · exact (hedges e (by simp) .compute).mpr ⟨lamNode, by decide, Or.inl rfl⟩
  · exact (hedges e (by simp) .data).mpr ⟨dbNode, by decide, Or.inr rfl⟩
  · intro hmem2
    obtain ⟨n, hn, hid⟩ := (hedges e (by simp) .network).mp hmem2
    rw [show layerNodes [lamNode, dbNode] Layer.network = [] from rfl] at hn
    exact absurd hn (List.not_mem_nil n)
  · intro hcontra
    exact homit _ hcontra rfl

/-! ### `CDKGenerator.generate` (services/cdk_generator.py)

The template strings are transcribed verbatim (apostrophes as `\x27`,
braces as `\x7b`/`\x7d`).  Python's `sorted` over the deduplicated import
set is modelled by a structural insertion sort: the elements are distinct
strings under a total order, so the result is the same sorted list.
-/

/-- `_to_var_name(label)`: lower-case and strip spaces and hyphens. -/
def toVarName (label : String) : String :=
  ⟨(lowerStr label).data.filter (fun c => !(c = ' ' || c = '-'))⟩

/-- The import line required by one `data.type` (`_get_imports` chain). -/
def importFor (t : String) : Option String :=
  if t = "lambda" then some "import * as lambda from \x27aws-cdk-lib/aws-lambda\x27;"
  else if t = "api" then some "import * as apigateway from \x27aws-cdk-lib/aws-apigateway\x27;"
  else if t = "database" then some "import * as dynamodb from \x27aws-cdk-lib/aws-dynamodb\x27;"
  else if t = "storage" then some "import * as s3 from \x27aws-cdk-lib/aws-s3\x27;"
  else if t = "queue" then some "import * as sqs from \x27aws-cdk-lib/aws-sqs\x27;"
  else if t = "auth" then some "import * as cognito from \x27aws-cdk-lib/aws-cognito\x27;"
  else if t = "cdn" then some "import * as cloudfront from \x27aws-cdk-lib/aws-cloudfront\x27;"
  else if t = "events" then some "import * as events from \x27aws-cdk-lib/aws-events\x27;"
  else if t = "notification" then some "import * as sns from \x27aws-cdk-lib/aws-sns\x27;"
  else if t = "workflow" then some "import * as sfn from \x27aws-cdk-lib/aws-stepfunctions\x27;"
  else if t = "stream" then some "import * as kinesis from \x27aws-cdk-lib/aws-kinesis\x27;"
  else none

/-- Stable insertion into a sorted list of strings. -/
def insertLe (a : String) : List String → List String
  | [] => [a]
  | b :: t => if a ≤ b then a :: b :: t else b :: insertLe a t

/-- Insertion sort on strings (models Python `sorted`). -/
def sortStrings : List String → List String
  | [] => []
  | a :: t => insertLe a (sortStrings t)

/-- `_get_imports(nodes)`: gather, deduplicate (the Python `set`), sort,
join with newlines. -/
def getImports (nodes : List Node) : String :=
  String.intercalate "\n"
    (sortStrings ((nodes.filterMap (fun n => importFor (n.data.dtype.getD ""))).eraseDups))

def cdkTemplateLambdaFn (v nid : String) : String :=
  "    const " ++ v ++ " = new lambda.Function(this, \x27" ++ nid ++
    "\x27, \x7b\n      runtime: lambda.Runtime.PYTHON_3_12,\n      handler: \x27index.handler\x27,\n      code: lambda.Code.fromInline(\x27def handler(event, context): return \x7b\"statusCode\": 200\x7d\x27),\n      timeout: cdk.Duration.seconds(30),\n      environment: \x7b\n        LOG_LEVEL: \x27INFO\x27,\n      \x7d,\n    \x7d);"

def cdkTemplateApi (v nid label : String) : String :=
  "    const " ++ v ++ " = new apigateway.RestApi(this, \x27" ++ nid ++
    "\x27, \x7b\n      restApiName: \x27" ++ label ++
    "\x27,\n      deployOptions: \x7b\n        stageName: \x27prod\x27,\n        tracingEnabled: true,\n        loggingLevel: apigateway.MethodLoggingLevel.INFO,\n      \x7d,\n      defaultCorsPreflightOptions: \x7b\n        allowOrigins: [\x27https://example.com\x27],  // TODO: Configure allowed origins\n        allowMethods: apigateway.Cors.ALL_METHODS,\n      \x7d,\n    \x7d);"

def cdkTemplateDatabase (v nid : String) : String :=
  "    const " ++ v ++ " = new dynamodb.Table(this, \x27" ++ nid ++
    "\x27, \x7b\n      partitionKey: \x7b name: \x27id\x27, type: dynamodb.AttributeType.STRING \x7d,\n      billingMode: dynamodb.BillingMode.PAY_PER_REQUEST,\n      encryption: dynamodb.TableEncryption.AWS_MANAGED,\n      pointInTimeRecovery: true,\n      removalPolicy: cdk.RemovalPolicy.DESTROY,\n    \x7d);"

def cdkTemplateStorage (v nid : String) : String :=
  "    const " ++ v ++ " = new s3.Bucket(this, \x27" ++ nid ++
    "\x27, \x7b\n      encryption: s3.BucketEncryption.S3_MANAGED,\n      blockPublicAccess: s3.BlockPublicAccess.BLOCK_ALL,\n      enforceSSL: true,\n      versioned: true,\n      removalPolicy: cdk.RemovalPolicy.DESTROY,\n      autoDeleteObjects: true,\n    \x7d);"

def cdkTemplateQueue (v nid : String) : String :=
  "    const " ++ v ++ "Dlq = new sqs.Queue(this, \x27" ++ nid ++
    "Dlq\x27, \x7b\n      encryption: sqs.QueueEncryption.SQS_MANAGED,\n    \x7d);\n    \n    const " ++
    v ++ " = new sqs.Queue(this, \x27" ++ nid ++
    "\x27, \x7b\n      encryption: sqs.QueueEncryption.SQS_MANAGED,\n      deadLetterQueue: \x7b\n        queue: " ++
    v ++ "Dlq,\n        maxReceiveCount: 3,\n      \x7d,\n    \x7d);"

def cdkTemplateAuth (v nid : String) : String :=
  "    const " ++ v ++ " = new cognito.UserPool(this, \x27" ++ nid ++
    "\x27, \x7b\n      selfSignUpEnabled: true,\n      signInAliases: \x7b email: true \x7d,\n      passwordPolicy: \x7b\n        minLength: 8,\n        requireLowercase: true,\n        requireUppercase: true,\n        requireDigits: true,\n        requireSymbols: true,\n      \x7d,\n      mfa: cognito.Mfa.OPTIONAL,\n      advancedSecurityMode: cognito.AdvancedSecurityMode.ENFORCED,\n    \x7d);"

def cdkTemplateCdn (v nid : String) : String :=
  "    const " ++ v ++ " = new cloudfront.Distribution(this, \x27" ++ nid ++
    "\x27, \x7b\n      defaultBehavior: \x7b\n        origin: new cloudfront.HttpOrigin(\x27example.com\x27),\n        viewerProtocolPolicy: cloudfront.ViewerProtocolPolicy.REDIRECT_TO_HTTPS,\n      \x7d,\n    \x7d);"

def cdkTemplateEvents (v nid label : String) : String :=
  "    const " ++ v ++ " = new events.EventBus(this, \x27" ++ nid ++
    "\x27, \x7b\n      eventBusName: \x27" ++ label ++ "\x27,\n    \x7d);"

def cdkTemplateNotif (v nid label : String) : String :=
  "    const " ++ v ++ " = new sns.Topic(this, \x27" ++ nid ++
    "\x27, \x7b\n      displayName: \x27" ++ label ++ "\x27,\n    \x7d);"

def cdkTemplateWorkflow (v nid : String) : String :=
  "    const " ++ v ++ " = new sfn.StateMachine(this, \x27" ++ nid ++
    "\x27, \x7b\n      definition: new sfn.Pass(this, \x27PassState\x27),\n      tracingEnabled: true,\n    \x7d);"

def cdkTemplateStream (v nid : String) : String :=
  "    const " ++ v ++ " = new kinesis.Stream(this, \x27" ++ nid ++
    "\x27, \x7b\n      encryption: kinesis.StreamEncryption.MANAGED,\n      retentionPeriod: cdk.Duration.hours(24),\n    \x7d);"

/-- The construct emitted for one node (unknown types are skipped). -/
def constructFor (n : Node) : Option String :=
  let nid := n.id
  let t := n.data.dtype.getD ""
  let label := n.data.dlabel.getD "Resource"
  let v := toVarName label
  if t = "lambda" then some (cdkTemplateLambdaFn v nid)
  else if t = "api" then some (cdkTemplateApi v nid label)
  else if t = "database" then some (cdkTemplateDatabase v nid)
  else if t = "storage" then some (cdkTemplateStorage v nid)
  else if t = "queue" then some (cdkTemplateQueue v nid)
  else if t = "auth" then some (cdkTemplateAuth v nid)
  else if t = "cdn" then some (cdkTemplateCdn v nid)
  else if t = "events" then some (cdkTemplateEvents v nid label)
  else if t = "notification" then some (cdkTemplateNotif v nid label)
  else if t = "workflow" then some (cdkTemplateWorkflow v nid)
  else if t = "stream" then some (cdkTemplateStream v nid)
  else none

/-- The `node_vars` dict: every node (known type or not) registers its
variable name; on duplicate ids the last write wins. -/
def nodeVars (nodes : List Node) (id : String) : Option String :=
  ((nodes.filter (fun n => n.id == id)).getLast?).map
    (fun n => toVarName (n.data.dlabel.getD "Resource"))

/-- `_get_node_type(nodes, node_id)` (first match). -/
def getNodeType (nodes : List Node) (id : String) : String :=
  match nodes.find? (fun n => n.id == id) with
  | some n => n.data.dtype.getD ""
  | none => ""

/-- The permission/integration statement for one edge, when both endpoints
are known and the type pair matches a wiring rule. -/
def edgeWiring (nodes : List Node) (e : Edge) : Option String :=
  match nodeVars nodes e.source, nodeVars nodes e.target with
  | some sv, some tv =>
    let st := getNodeType nodes e.source
    let tt := getNodeType nodes e.target
    if st = "lambda" ∧ tt = "database" then
      some ("\n    " ++ tv ++ ".grantReadWriteData(" ++ sv ++ ");")
    else if st = "lambda" ∧ tt = "storage" then
      some ("\n    " ++ tv ++ ".grantReadWrite(" ++ sv ++ ");")
    else if st = "api" ∧ tt = "lambda" then
      some ("\n    " ++ sv ++ ".root.addMethod(\x27ANY\x27, new apigateway.LambdaIntegration(" ++
        tv ++ "));")
    else none
  | _, _ => none

/-- `_generate_constructs(nodes, edges)`. -/
def generateConstructs (nodes : List Node) (edges : List Edge) : String :=
  String.intercalate "\n\n"
    (nodes.filterMap constructFor ++ edges.filterMap (edgeWiring nodes))

/-- `CDKGenerator.generate(nodes, edges)`. -/
def cdkGenerate (nodes : List Node) (edges : List Edge) : String :=
  "import * as cdk from \x27aws-cdk-lib\x27;\nimport \x7b Construct \x7d from \x27constructs\x27;\n" ++
    getImports nodes ++
    "\n\nexport class ScaffoldAiStack extends cdk.Stack \x7b\n  constructor(scope: Construct, id: string, props?: cdk.StackProps) \x7b\n    super(scope, id, props);\n\n" ++
    generateConstructs nodes edges ++
    "\n  \x7d\n\x7d\n"

/-- A node with an explicit type and label, as the generator receives. -/
def genNode (t : String) : Node :=
  { id := "n-1", data := { dtype := some t, dlabel := some "Res" } }

set_option maxRecDepth 4096 in
/-- C10 counterexample: the output for a single `cdn` node contains the
hardcoded domain `example.com` and no `TODO` marker anywhere. -/
theorem cdk_generate_cdn_hardcodes_example_domain :
    strHasSub (cdkGenerate [genNode "cdn"] []) "example.com" = true ∧
    strHasSub (cdkGenerate [genNode "cdn"] []) "TODO" = false := by decide

set_option maxRecDepth 8192 in
/-- C10 (amended) — exactly two templates emit `example.com`: the `api`
template (whose output also carries an explicit `TODO` marker on the CORS
line) and the `cdn` template (whose output carries no `TODO` at all);
the output for every other node type, and the empty skeleton, contains no
`example.com`. -/
theorem cdk_generate_example_domain_only_api_and_cdn :
    (strHasSub (cdkGenerate [genNode "api"] []) "example.com" = true ∧
     strHasSub (cdkGenerate [genNode "api"] []) "TODO" = true) ∧
    (strHasSub (cdkGenerate [genNode "cdn"] []) "example.com" = true ∧
     strHasSub (cdkGenerate [genNode "cdn"] []) "TODO" = false) ∧
    (∀ t ∈ ["lambda", "database", "storage", "queue", "auth", "events",
            "notification", "workflow", "stream", "vpc", ""],
      strHasSub (cdkGenerate [genNode t] []) "example.com" = false) ∧
    strHasSub (cdkGenerate [] []) "example.com" = false := by decide

/-- C10 witness: the lambda template emits no `example.com`. -/
theorem cdk_generate_example_domain_only_api_and_cdn_witness :
    strHasSub (cdkGenerate [genNode "lambda"] []) "example.com" = false := by
  exact cdk_generate_example_domain_only_api_and_cdn.2.2.1 "lambda" (by decide)

end ScaffoldAI
